import Mathlib

/-!
Verification of the test-run orchestrator of the playwright_bdd_framework
repository: a shallow embedding of the configuration resolver
(framework/config/config_manager.py), the per-scenario result aggregation and
lifecycle hooks (features/environment.py), the email run-summary reporter
(framework/reporting/email_reporter.py) and the Zephyr integration request
boundary (framework/integrations/zephyr_integration.py), together with
theorems settling the frozen claims about them.

Python `dict`s are modelled as insertion-ordered association lists,
`datetime` instants as integer timestamps, and code that can raise as
`Except String` values.
-/

/-- A resolved configuration value as stored in `ConfigManager.config_data`:
the Python values that can appear there are `None`, booleans, integers,
strings and nested dicts (from JSON sources or JSON-coerced INI values). -/
inductive Value where
  | vNone : Value
  | vBool : Bool → Value
  | vInt : Int → Value
  | vStr : String → Value
  | vDict : List (String × Value) → Value

/-- The `config_data` mapping: a Python dict from section names to values,
modelled as an insertion-ordered association list. -/
abbrev Store := List (String × Value)

/-- Python dict read `m.get(k)` / `m[k]` presence test on an association list. -/
def lookupA (m : List (String × Value)) (k : String) : Option Value :=
  match m with
  | [] => none
  | (k', v) :: rest => if k' = k then some v else lookupA rest k

/-- Python dict write `m[k] = v`: overwrite in place when the key is present
(keeping its position, as CPython dicts do), otherwise append. -/
def setA (m : List (String × Value)) (k : String) (v : Value) : List (String × Value) :=
  match m with
  | [] => [(k, v)]
  | (k', v') :: rest => if k' = k then (k, v) :: rest else (k', v') :: setA rest k v

/-- The guard `if section not in self.config_data: self.config_data[section] = \x7b\x7d`
used by `_load_ini` and `_load_environment_variables`. -/
def ensureSection (d : Store) (sec : String) : Store :=
  match lookupA d sec with
  | none => setA d sec (Value.vDict [])
  | some _ => d

/-- The statement `self.config_data[section][key] = value`. It raises
`TypeError` (modelled as `Except.error`) when the section entry exists but is
not a dict, exactly as item assignment does on a non-dict Python value; the
`KeyError` branch is unreachable in the code because every caller ensures the
section key exists first. -/
def setSectionKey (d : Store) (sec k : String) (v : Value) : Except String Store :=
  match lookupA d sec with
  | some (Value.vDict m) => Except.ok (setA d sec (Value.vDict (setA m k v)))
  | some _ => Except.error "TypeError: item assignment on a non-dict section"
  | none => Except.error "KeyError"

/-- Boolean prefix test on code-point lists, the meaning of Python
`str.startswith` (Python strings are sequences of code points). -/
def charsPrefix (p s : List Char) : Bool :=
  match p, s with
  | [], _ => true
  | _ :: _, [] => false
  | c :: p', c' :: s' => c = c' && charsPrefix p' s'

/-- Python `str.startswith`. -/
def strStartsWith (s p : String) : Bool := charsPrefix p.data s.data

/-- Python `str.endswith`. -/
def strEndsWith (s p : String) : Bool := charsPrefix p.data.reverse s.data.reverse

/-- Python `str.lower` (on the ASCII fragment used by the code). -/
def strToLower (s : String) : String := String.mk (s.data.map Char.toLower)

/-- Python `str.upper` (on the ASCII fragment used by the code). -/
def strToUpper (s : String) : String := String.mk (s.data.map Char.toUpper)

/-- Python `str.isdigit` restricted to ASCII digits (the fragment exercised
by the configuration values modelled here); `"".isdigit()` is `False`. -/
def strIsDigit (s : String) : Bool := !s.data.isEmpty && s.data.all Char.isDigit

/-- Python `int(...)` on an all-digit string. -/
def strToNat (s : String) : Nat := s.data.foldl (fun n c => n * 10 + (c.toNat - 48)) 0

/-- The `$\x7bNAME\x7d` handling in `ConfigManager._load_ini`: when the raw INI value
starts with `$\x7b` and ends with `\x7d`, look up the enclosed name in the process
environment (`os.getenv(env_var, value)`), keeping the literal text when the
variable is unset. -/
def substEnv (env : String → Option String) (raw : String) : String :=
  if strStartsWith raw "$\x7b" && strEndsWith raw "\x7d" then
    (env ((raw.drop 2).dropRight 1)).getD raw
  else raw

/-- One INI value as `_load_ini` stores it: environment substitution first,
then an attempted `json.loads` coercion (`tryParse`), keeping the string when
parsing fails (`json.JSONDecodeError`). -/
def loadIniValue (env : String → Option String) (tryParse : String → Option Value)
    (raw : String) : Value :=
  let v := substEnv env raw
  (tryParse v).getD (Value.vStr v)

/-- Model of `json.loads` as applied by `_load_ini` to scalar INI values, on
the fragment exercised here: the literals `true`, `false`, `null` and unsigned
integer numerals without leading zeros parse; every other input is a parse
failure (`none`), matching CPython's `json.loads` on such inputs. -/
def jsonTryParse (s : String) : Option Value :=
  if s = "true" then some (Value.vBool true)
  else if s = "false" then some (Value.vBool false)
  else if s = "null" then some Value.vNone
  else if strIsDigit s ∧ (s = "0" ∨ strStartsWith s "0" = false) then
    some (Value.vInt (strToNat s))
  else none

/-- The inner loop of `ConfigManager._load_ini` over `parser.items(section)`
(keys as configparser yields them), writing each processed value into the
section. -/
def loadIniItems (env : String → Option String) (tryParse : String → Option Value)
    (sec : String) (items : List (String × String)) (d : Store) : Except String Store :=
  match items with
  | [] => Except.ok d
  | (k, raw) :: rest =>
    match setSectionKey d sec k (loadIniValue env tryParse raw) with
    | Except.ok d' => loadIniItems env tryParse sec rest d'
    | Except.error e => Except.error e

/-- Model of `ConfigManager._load_ini`: for each parsed section, ensure the section key
exists then store each processed item. -/
def loadIni (env : String → Option String) (tryParse : String → Option Value)
    (sections : List (String × List (String × String))) (d : Store) : Except String Store :=
  match sections with
  | [] => Except.ok d
  | (sec, items) :: rest =>
    match loadIniItems env tryParse sec items (ensureSection d sec) with
    | Except.ok d' => loadIni env tryParse rest d'
    | Except.error e => Except.error e

/-- Python `dict.update`: fold the update pairs into the receiver in order. -/
def dictUpdate (m upd : List (String × Value)) : List (String × Value) :=
  match upd with
  | [] => m
  | (k, v) :: rest => dictUpdate (setA m k v) rest

/-- One top-level entry of `ConfigManager._load_json`: a dict value is merged
into the existing section with `dict.update` (creating the section when
absent); merging into a present non-dict entry raises `AttributeError`; a
non-dict value replaces the top-level entry wholesale. No environment
substitution is applied anywhere in this loader. -/
def loadJsonEntry (d : Store) (key : String) (v : Value) : Except String Store :=
  match v with
  | Value.vDict upd =>
    match lookupA d key with
    | some (Value.vDict m) => Except.ok (setA d key (Value.vDict (dictUpdate m upd)))
    | some _ => Except.error "AttributeError: update on a non-dict entry"
    | none => Except.ok (setA d key (Value.vDict (dictUpdate [] upd)))
  | _ => Except.ok (setA d key v)

/-- Model of `ConfigManager._load_json` over the parsed top-level JSON object. -/
def loadJson (jsonData : List (String × Value)) (d : Store) : Except String Store :=
  match jsonData with
  | [] => Except.ok d
  | (k, v) :: rest =>
    match loadJsonEntry d k v with
    | Except.ok d' => loadJson rest d'
    | Except.error e => Except.error e

/-- The fixed `env_mappings` table of `ConfigManager._load_environment_variables`:
environment variable name, target section, target key. -/
def envMappings : List (String × String × String) :=
  [("BROWSER", "framework", "browser"),
   ("HEADLESS", "framework", "headless"),
   ("BASE_URL", "framework", "base_url"),
   ("TIMEOUT", "framework", "timeout"),
   ("JIRA_SERVER", "jira", "server"),
   ("JIRA_TOKEN", "jira", "api_token"),
   ("JIRA_EMAIL", "jira", "email"),
   ("ZEPHYR_TOKEN", "zephyr", "api_token"),
   ("DB_CONNECTION_STRING", "database", "connection_string"),
   ("SMTP_SERVER", "email", "smtp_server"),
   ("SMTP_PORT", "email", "smtp_port")]

/-- The boolean/integer coercion `_load_environment_variables` applies to a
raw environment value: `value.lower() in ("true", "false")` becomes a boolean,
else `value.isdigit()` becomes `int(value)` (Python `int` accepts leading
zeros), else the string is kept. ASCII digits model `str.isdigit`. -/
def coerceEnvValue (s : String) : Value :=
  if strToLower s = "true" ∨ strToLower s = "false" then
    Value.vBool (strToLower s = "true")
  else if strIsDigit s then Value.vInt (strToNat s)
  else Value.vStr s

/-- One iteration of the `_load_environment_variables` loop: read the variable
with `os.getenv`; the Python truthiness guard `if value:` skips both an unset
variable and one set to the empty string; otherwise ensure the section and
store the coerced value. -/
def loadEnvStep (env : String → Option String) (d : Store)
    (m : String × String × String) : Except String Store :=
  match env m.1 with
  | some v =>
    if v = "" then Except.ok d
    else setSectionKey (ensureSection d m.2.1) m.2.1 m.2.2 (coerceEnvValue v)
  | none => Except.ok d

/-- The `_load_environment_variables` loop over a mapping table. -/
def loadEnvList (env : String → Option String)
    (ms : List (String × String × String)) (d : Store) : Except String Store :=
  match ms with
  | [] => Except.ok d
  | m :: rest =>
    match loadEnvStep env d m with
    | Except.ok d' => loadEnvList env rest d'
    | Except.error e => Except.error e

/-- A caller-supplied override file in `ConfigManager._load_config` step 3,
dispatched on its suffix to `_load_ini` or `_load_json`. -/
inductive SourceFile where
  | iniFile : List (String × List (String × String)) → SourceFile
  | jsonFile : List (String × Value) → SourceFile

/-- Steps 1 to 3 of `ConfigManager._load_config`: the base `config.ini` when
present, then the environment-named `<env>.json` when present, then the
optional caller-supplied override file. -/
def loadFileSources (env : String → Option String) (tryParse : String → Option Value)
    (baseIni : Option (List (String × List (String × String))))
    (envJson : Option (List (String × Value)))
    (customFile : Option SourceFile) : Except String Store :=
  let step1 := match baseIni with
    | some s => loadIni env tryParse s []
    | none => Except.ok []
  match step1 with
  | Except.error e => Except.error e
  | Except.ok d1 =>
    let step2 := match envJson with
      | some j => loadJson j d1
      | none => Except.ok d1
    match step2 with
    | Except.error e => Except.error e
    | Except.ok d2 =>
      match customFile with
      | some (SourceFile.iniFile s) => loadIni env tryParse s d2
      | some (SourceFile.jsonFile j) => loadJson j d2
      | none => Except.ok d2

/-- Model of `ConfigManager._load_config`: the three file-based steps followed by the
environment-variable override table, which is always loaded last. -/
def ConfigManager.loadConfig (env : String → Option String) (tryParse : String → Option Value)
    (baseIni : Option (List (String × List (String × String))))
    (envJson : Option (List (String × Value)))
    (customFile : Option SourceFile) : Except String Store :=
  match loadFileSources env tryParse baseIni envJson customFile with
  | Except.ok d3 => loadEnvList env envMappings d3
  | Except.error e => Except.error e

/-- Model of `ConfigManager.get`: `self.config_data.get(section, \x7b\x7d).get(key, default)`.
When the section entry is absent the inner lookup runs on the empty dict and
yields the default; when it is present as a dict the key is looked up with the
default; when it is present but not a dict, the attribute access `.get` on a
non-dict value raises `AttributeError`. -/
def ConfigManager.get (d : Store) (sec k : String) (default : Value) : Except String Value :=
  match lookupA d sec with
  | none => Except.ok default
  | some (Value.vDict m) => Except.ok ((lookupA m k).getD default)
  | some _ => Except.error "AttributeError"

/-! ## Result aggregation (features/environment.py) -/

/-- One entry of `context.test_results['scenarios']`, the `scenario_result`
dict built in `after_scenario`. The `error` and `screenshot` fields are
`Option` because the corresponding dict keys are added conditionally; the
duration (a float of seconds in the source) is modelled as an integer
timestamp difference. -/
structure ScenarioResult where
  name : String
  status : String
  duration : Int
  tags : List String
  test_case_id : Option String
  feature : String
  error : Option String
  screenshot : Option String
deriving DecidableEq

/-- The `context.test_results` dict: counters plus the scenario log. -/
structure TestResults where
  passed : Nat
  failed : Nat
  skipped : Nat
  total : Nat
  scenarios : List ScenarioResult
deriving DecidableEq

/-- The initial `context.test_results` built in `before_all`. -/
def initTestResults : TestResults :=
  { passed := 0, failed := 0, skipped := 0, total := 0, scenarios := [] }

/-- The counter update of `after_scenario` (total incremented, then exactly
one of passed/failed/skipped picked by the raw `scenario.status` string). -/
def updateCounters (tr : TestResults) (raw : String) : TestResults :=
  let tr' := { tr with total := tr.total + 1 }
  if raw = "passed" then { tr' with passed := tr'.passed + 1 }
  else if raw = "failed" then { tr' with failed := tr'.failed + 1 }
  else { tr' with skipped := tr'.skipped + 1 }

/-- The `scenario_result` dict construction of `after_scenario`: the recorded
status string is the binary `'passed' if scenario.status == 'passed' else
'failed'`; the error text (`str(scenario.exception)` when present, else
`'Unknown error'`) and the screenshot path are attached only when the raw
status is exactly `'failed'`. -/
def buildScenarioResult (scName raw : String) (dur : Int) (tags : List String)
    (tcid : Option String) (featureName : String) (exc : Option String)
    (shot : Option String) : ScenarioResult :=
  { name := scName
    status := if raw = "passed" then "passed" else "failed"
    duration := dur
    tags := tags
    test_case_id := tcid
    feature := featureName
    error := if raw = "failed" then some (exc.getD "Unknown error") else none
    screenshot := if raw = "failed" then shot else none }

/-- The full result-recording step of `after_scenario`: update the counters,
then append the scenario result to the log in arrival order. -/
def recordScenario (tr : TestResults) (raw : String) (r : ScenarioResult) : TestResults :=
  let tr' := updateCounters tr raw
  { tr' with scenarios := tr'.scenarios ++ [r] }

/-- The pass rate computed by `EmailReporter.send_summary_report`:
`(passed / total * 100) if total > 0 else 0`, over the rationals. -/
def EmailReporter.passRate (tr : TestResults) : ℚ :=
  if 0 < tr.total then (tr.passed : ℚ) / (tr.total : ℚ) * 100 else 0

/-- The test-case-id extraction loop of `before_scenario`: the first tag
starting with exactly `TC-` or exactly `tc-` is uppercased and kept; the loop
breaks at the first match; no match leaves the id `None`. -/
def extractTestCaseId (tags : List String) : Option String :=
  match tags with
  | [] => none
  | t :: rest =>
    if strStartsWith t "TC-" || strStartsWith t "tc-" then some (strToUpper t)
    else extractTestCaseId rest

/-- The run-level results as touched by `after_all`: `before_all` stores
`start_time` and no `end_time`/`duration` keys (hence `Option`). -/
structure RunResults where
  results : TestResults
  start_time : Int
  end_time : Option Int
  duration : Option Int
deriving DecidableEq

/-- The summary finalization in `after_all`: it unconditionally assigns
`end_time = datetime.now()` and recomputes the duration from it, whatever the
previous contents of those keys were. -/
def afterAllFinalize (r : RunResults) (now : Int) : RunResults :=
  { r with end_time := some now, duration := some (now - r.start_time) }

/-! ## Exception flow of after_scenario (features/environment.py) and the
reporting-sink call boundaries -/

/-- The mutable state `after_scenario` touches: the run's `test_results`, the
dynamic `scenario.screenshot_path` attribute, the number of calls to
`browser_manager.stop` and the number of sink report calls issued. -/
structure ExecState where
  testResults : TestResults
  screenshotPath : Option String
  stopCalls : Nat
  sinkCalls : Nat
deriving DecidableEq

/-- A Python statement sequence acting on the state: it returns the updated
state and whether an exception escaped it (`true` = raised). Effects performed
before the raise persist, as in Python. -/
abbrev Act : Type := ExecState → ExecState × Bool

/-- A statement with no modelled effect. -/
def skipAct : Act := fun s => (s, false)

/-- Sequencing: if the first statement raises, the second never runs and the
exception keeps propagating. -/
def seqAct (a b : Act) : Act := fun s =>
  let p := a s
  if p.2 then p else b p.1

/-- A `try: ... except Exception:` block whose handler only logs: the body's
state changes persist and the exception never propagates. -/
def tryAct (a : Act) : Act := fun s => ((a s).1, false)

/-- Which operations inside one `after_scenario` run raise. -/
structure FaultModel where
  screenshotRaises : Bool
  outcomeRaises : Bool
  zephyrRaises : Bool
  stopRaises : Bool

/-- The call `context.actions.take_screenshot` followed by
`scenario.screenshot_path = ...` (the attribute is only set when the capture
succeeded). -/
def screenshotAct (raises : Bool) (path : String) : Act := fun s =>
  if raises then (s, true) else ({ s with screenshotPath := some path }, false)

/-- The counter-update statements of `after_scenario` (pure dict arithmetic,
cannot raise). -/
def countersAct (raw : String) : Act := fun s =>
  ({ s with testResults := updateCounters s.testResults raw }, false)

/-- The `scenario_result` construction and append (lines 165-179 of
`after_scenario`). This region is not inside any `try`, so a raise here (for
example from `str(scenario.exception)`) escapes; on success the record is
appended to `test_results['scenarios']`. -/
def outcomeAct (raises : Bool) (scName raw : String) (dur : Int) (tags : List String)
    (tcid : Option String) (featureName : String) (exc : Option String) : Act := fun s =>
  if raises then (s, true)
  else
    let r := buildScenarioResult scName raw dur tags tcid featureName exc s.screenshotPath
    ({ s with testResults :=
        { s.testResults with scenarios := s.testResults.scenarios ++ [r] } }, false)

/-- The `zephyr_client.update_test_execution` call: the sink call is issued
and may raise into the caller. -/
def zephyrUpdateAct (raises : Bool) : Act := fun s =>
  ({ s with sinkCalls := s.sinkCalls + 1 }, raises)

/-- The `browser_manager.stop()` call: the call always happens when this
statement is reached, and may itself raise. -/
def stopAct (raises : Bool) : Act := fun s =>
  ({ s with stopCalls := s.stopCalls + 1 }, raises)

/-- Model of `after_scenario` as the sequence of its effectful regions, translated
block-by-block: the screenshot-on-failure block (its own `try/except`, only
entered for a raw `'failed'` status with the policy on), the counter updates,
the unguarded outcome construction and append, the Zephyr dispatch (its own
`try/except`, only entered when the client and a test-case id are present),
and finally `browser_manager.stop()` inside its own `try/except`. -/
def afterScenarioAct (scName featureName raw : String) (dur : Int) (tags : List String)
    (tcid : Option String) (exc : Option String) (shotPath : String)
    (shotOnFailure zephyrOn : Bool) (f : FaultModel) : Act :=
  seqAct (if raw = "failed" ∧ shotOnFailure = true then
            tryAct (screenshotAct f.screenshotRaises shotPath)
          else skipAct)
  (seqAct (countersAct raw)
  (seqAct (outcomeAct f.outcomeRaises scName raw dur tags tcid featureName exc)
  (seqAct (if zephyrOn = true ∧ tcid.isSome = true then
             tryAct (zephyrUpdateAct f.zephyrRaises)
           else skipAct)
          (tryAct (stopAct f.stopRaises)))))

/-- Model of `ZephyrIntegration._make_request`: a supported method issues the HTTP
call; a `requests.exceptions.RequestException` (connection error or a bad
status from `raise_for_status`, modelled by `requestFails`) is caught, logged
and turned into the error result `None`; an unsupported method raises
`ValueError`, which the `RequestException` handler does not catch. The
response body is irrelevant here and modelled as an empty dict. -/
def ZephyrIntegration.makeRequest (method : String) (requestFails : Bool) :
    Except String (Option Value) :=
  if method = "GET" then
    (if requestFails then Except.ok none else Except.ok (some (Value.vDict [])))
  else if method = "POST" then
    (if requestFails then Except.ok none else Except.ok (some (Value.vDict [])))
  else if method = "PUT" then
    (if requestFails then Except.ok none else Except.ok (some (Value.vDict [])))
  else Except.error "ValueError: unsupported method"

/-- Model of `EmailReporter.send_email`: the whole body sits in a
`try: ... except Exception: return False`, so a failing SMTP interaction
yields the error result `False` and never raises. -/
def EmailReporter.sendEmail (smtpFails : Bool) : Bool :=
  if smtpFails then false else true

/-- Observable behavior of one reporting-sink call at its call boundary. -/
inductive SinkBehavior where
  | success : SinkBehavior
  | errResult : SinkBehavior
  | throwsErr : SinkBehavior
deriving DecidableEq

/-- One sink report call: the call is always issued when reached; only the
`throwsErr` behavior raises into the caller (an error result such as
Zephyr's `None` or the email reporter's `False` returns normally). -/
def sinkCallAct (b : SinkBehavior) : Act := fun s =>
  ({ s with sinkCalls := s.sinkCalls + 1 },
   match b with
   | SinkBehavior.throwsErr => true
   | _ => false)

/-- The per-integration dispatch pattern of the hooks: each sink call is
wrapped in its own `try/except` block that only logs, and the sinks are
attempted in their fixed order. -/
def dispatchSinks (sinks : List SinkBehavior) : Act := fun s =>
  (sinks.foldl (fun s' b => (tryAct (sinkCallAct b) s').1) s, false)

/-! ## Store lemmas -/

theorem lookupA_setA (m : List (String × Value)) (k j : String) (v : Value) :
    lookupA (setA m k v) j = if k = j then some v else lookupA m j := by
  induction m with
  | nil => by_cases h : k = j <;> simp [setA, lookupA, h]
  | cons p rest ih =>
    obtain ⟨k', v'⟩ := p
    by_cases hk : k' = k
    · subst hk
      by_cases hj : k' = j <;> simp [setA, lookupA, hj]
    · by_cases hj : k' = j
      · subst hj
        have hkj : ¬ k = k' := fun h => hk h.symm
        simp [setA, lookupA, hk, hkj]
      · simp [setA, lookupA, hk, hj, ih]

theorem get_ensureSection (d : Store) (s' sec k : String) (dft : Value) :
    ConfigManager.get (ensureSection d s') sec k dft = ConfigManager.get d sec k dft := by
  unfold ensureSection
  cases h : lookupA d s' with
  | some v => rfl
  | none =>
    unfold ConfigManager.get
    rw [lookupA_setA]
    by_cases hs : s' = sec
    · subst hs
      rw [h]
      simp [lookupA]
    · simp [hs]

theorem get_setSectionKey_self (d d1 : Store) (sec k : String) (v dft : Value)
    (h : setSectionKey d sec k v = Except.ok d1) :
    ConfigManager.get d1 sec k dft = Except.ok v := by
  unfold setSectionKey at h
  cases hl : lookupA d sec with
  | none => rw [hl] at h; exact absurd h (by simp)
  | some w =>
    cases w with
    | vDict m =>
      rw [hl] at h
      simp only [Except.ok.injEq] at h
      subst h
      unfold ConfigManager.get
      rw [lookupA_setA]
      simp [lookupA_setA]
    | vNone => rw [hl] at h; exact absurd h (by simp)
    | vBool b => rw [hl] at h; exact absurd h (by simp)
    | vInt i => rw [hl] at h; exact absurd h (by simp)
    | vStr s => rw [hl] at h; exact absurd h (by simp)

theorem get_setSectionKey_ne (d d1 : Store) (s' k' sec k : String) (v dft : Value)
    (h : setSectionKey d s' k' v = Except.ok d1)
    (hne : s' ≠ sec ∨ k' ≠ k) :
    ConfigManager.get d1 sec k dft = ConfigManager.get d sec k dft := by
  unfold setSectionKey at h
  cases hl : lookupA d s' with
  | none => rw [hl] at h; exact absurd h (by simp)
  | some w =>
    cases w with
    | vDict m =>
      rw [hl] at h
      simp only [Except.ok.injEq] at h
      subst h
      unfold ConfigManager.get
      rw [lookupA_setA]
      by_cases hs : s' = sec
      · subst hs
        have hk : k' ≠ k := hne.resolve_left (fun h => h rfl)
        rw [if_pos rfl, hl]
        show Except.ok ((lookupA (setA m k' v) k).getD dft)
            = Except.ok ((lookupA m k).getD dft)
        rw [lookupA_setA, if_neg hk]
      · simp [hs]
    | vNone => rw [hl] at h; exact absurd h (by simp)
    | vBool b => rw [hl] at h; exact absurd h (by simp)
    | vInt i => rw [hl] at h; exact absurd h (by simp)
    | vStr s => rw [hl] at h; exact absurd h (by simp)

/-! ## Environment-variable override lemmas -/

theorem loadEnvStep_preserves (env : String → Option String) (d d1 : Store)
    (m : String × String × String) (sec k : String) (dft : Value)
    (h : loadEnvStep env d m = Except.ok d1)
    (hcase : m.2.1 ≠ sec ∨ m.2.2 ≠ k ∨ env m.1 = none ∨ env m.1 = some "") :
    ConfigManager.get d1 sec k dft = ConfigManager.get d sec k dft := by
  cases he : env m.1 with
  | none =>
    simp only [loadEnvStep, he, Except.ok.injEq] at h
    subst h; rfl
  | some v =>
    simp only [loadEnvStep, he] at h
    by_cases hv : v = ""
    · rw [if_pos hv] at h
      simp only [Except.ok.injEq] at h
      subst h; rfl
    · rw [if_neg hv] at h
      have hne : m.2.1 ≠ sec ∨ m.2.2 ≠ k := by
        rcases hcase with h1 | h2 | h3 | h4
        · exact Or.inl h1
        · exact Or.inr h2
        · rw [he] at h3; exact absurd h3 (by simp)
        · rw [he] at h4
          simp only [Option.some.injEq] at h4
          exact absurd h4 hv
      rw [get_setSectionKey_ne _ _ _ _ _ _ (coerceEnvValue v) dft h hne]
      exact get_ensureSection d m.2.1 sec k dft

theorem loadEnvList_preserves (env : String → Option String)
    (ms : List (String × String × String)) (d d' : Store) (sec k : String) (dft : Value)
    (hall : ∀ m ∈ ms, m.2 = (sec, k) → env m.1 = none ∨ env m.1 = some "")
    (hrun : loadEnvList env ms d = Except.ok d') :
    ConfigManager.get d' sec k dft = ConfigManager.get d sec k dft := by
  induction ms generalizing d with
  | nil =>
    unfold loadEnvList at hrun
    simp only [Except.ok.injEq] at hrun
    subst hrun; rfl
  | cons m rest ih =>
    unfold loadEnvList at hrun
    cases hstep : loadEnvStep env d m with
    | error e => rw [hstep] at hrun; exact absurd hrun (by simp)
    | ok d1 =>
      rw [hstep] at hrun
      have hm : m.2.1 ≠ sec ∨ m.2.2 ≠ k ∨ env m.1 = none ∨ env m.1 = some "" := by
        by_cases hp : m.2 = (sec, k)
        · rcases hall m (List.mem_cons_self m rest) hp with h1 | h2
          · exact Or.inr (Or.inr (Or.inl h1))
          · exact Or.inr (Or.inr (Or.inr h2))
        · by_cases h1 : m.2.1 = sec
          · refine Or.inr (Or.inl ?_)
            intro h2
            exact hp (Prod.ext h1 h2)
          · exact Or.inl h1
      have h2 := ih d1 (fun m' hm' hp => hall m' (List.mem_cons_of_mem m hm') hp) hrun
      rw [h2]
      exact loadEnvStep_preserves env d d1 m sec k dft hstep hm

theorem loadEnvList_mem_get (env : String → Option String)
    (ms : List (String × String × String)) (d d' : Store)
    (ev sec k : String) (v : String) (dft : Value)
    (hmem : (ev, sec, k) ∈ ms)
    (hnd : (ms.map (fun m => m.2)).Nodup)
    (henv : env ev = some v) (hv : v ≠ "")
    (hrun : loadEnvList env ms d = Except.ok d') :
    ConfigManager.get d' sec k dft = Except.ok (coerceEnvValue v) := by
  induction ms generalizing d with
  | nil => cases hmem
  | cons m rest ih =>
    unfold loadEnvList at hrun
    cases hstep : loadEnvStep env d m with
    | error e => rw [hstep] at hrun; exact absurd hrun (by simp)
    | ok d1 =>
      rw [hstep] at hrun
      replace hrun : loadEnvList env rest d1 = Except.ok d' := hrun
      rcases List.mem_cons.mp hmem with heq | hrest
      · subst heq
        have hstep' : setSectionKey (ensureSection d sec) sec k (coerceEnvValue v)
            = Except.ok d1 := by
          simp only [loadEnvStep, henv, if_neg hv] at hstep
          exact hstep
        have hget1 : ConfigManager.get d1 sec k dft = Except.ok (coerceEnvValue v) :=
          get_setSectionKey_self _ _ _ _ _ _ hstep'
        have hrest_pres : ConfigManager.get d' sec k dft = ConfigManager.get d1 sec k dft := by
          refine loadEnvList_preserves env rest d1 d' sec k dft ?_ hrun
          intro m' hm' hp
          exfalso
          have : (sec, k) ∈ rest.map (fun m => m.2) := by
            rw [← hp]
            exact List.mem_map_of_mem _ hm'
          rw [List.map_cons, List.nodup_cons] at hnd
          exact hnd.1 this
        rw [hrest_pres, hget1]
      · exact ih d1 hrest (by rw [List.map_cons, List.nodup_cons] at hnd; exact hnd.2) hrun

theorem envMappings_pairs_nodup : (envMappings.map (fun m => m.2)).Nodup := by
  decide

/-! ## Result-aggregation lemmas -/

/-- The results of a whole run: `after_scenario`'s recording step applied to
each (raw status, built record) pair in completion order, starting from the
zeroed dict `before_all` creates. -/
def runRecord (runs : List (String × ScenarioResult)) : TestResults :=
  runs.foldl (fun acc p => recordScenario acc p.1 p.2) initTestResults

theorem recordScenario_counts (tr : TestResults) (raw : String) (r : ScenarioResult) :
    (recordScenario tr raw r).total = tr.total + 1
    ∧ (recordScenario tr raw r).passed + (recordScenario tr raw r).failed
        + (recordScenario tr raw r).skipped
      = tr.passed + tr.failed + tr.skipped + 1
    ∧ (recordScenario tr raw r).scenarios = tr.scenarios ++ [r] := by
  unfold recordScenario updateCounters
  by_cases h1 : raw = "passed" <;> by_cases h2 : raw = "failed" <;>
    simp [h1, h2] <;> omega

theorem recordScenario_foldl_counts (runs : List (String × ScenarioResult))
    (tr : TestResults) :
    (runs.foldl (fun acc p => recordScenario acc p.1 p.2) tr).total
        = tr.total + runs.length
    ∧ (runs.foldl (fun acc p => recordScenario acc p.1 p.2) tr).passed
        + (runs.foldl (fun acc p => recordScenario acc p.1 p.2) tr).failed
        + (runs.foldl (fun acc p => recordScenario acc p.1 p.2) tr).skipped
      = tr.passed + tr.failed + tr.skipped + runs.length := by
  induction runs generalizing tr with
  | nil => simp
  | cons p rest ih =>
    simp only [List.foldl_cons, List.length_cons]
    obtain ⟨ht, hc, _⟩ := recordScenario_counts tr p.1 p.2
    obtain ⟨iht, ihc⟩ := ih (recordScenario tr p.1 p.2)
    constructor
    · rw [iht, ht]; omega
    · rw [ihc, hc]; omega

/-- C1: for every sequence of N scenario outcomes recorded by the result
aggregation of `after_scenario`, the counters satisfy
passed + failed + skipped = total = N, and the pass rate computed for the run
summary by `EmailReporter.send_summary_report` equals passed / N * 100, and
equals 0 when N = 0 (the zeroed initial results). -/
theorem c1_aggregator_invariant (runs : List (String × ScenarioResult)) :
    (runRecord runs).passed + (runRecord runs).failed + (runRecord runs).skipped
        = (runRecord runs).total
    ∧ (runRecord runs).total = runs.length
    ∧ EmailReporter.passRate (runRecord runs)
        = ((runRecord runs).passed : ℚ) / (runs.length : ℚ) * 100
    ∧ EmailReporter.passRate initTestResults = 0 := by
  obtain ⟨ht, hc⟩ := recordScenario_foldl_counts runs initTestResults
  have ht' : (runRecord runs).total = runs.length := by
    rw [runRecord, ht]; simp [initTestResults]
  have hc' : (runRecord runs).passed + (runRecord runs).failed
      + (runRecord runs).skipped = (runRecord runs).total := by
    rw [runRecord, hc, ht]
    simp [initTestResults]
  refine ⟨hc', ht', ?_, by simp [EmailReporter.passRate, initTestResults]⟩
  unfold EmailReporter.passRate
  rw [ht']
  by_cases h : 0 < runs.length
  · rw [if_pos h]
  · have h0 : runs.length = 0 := by omega
    rw [h0]
    simp

/-- C6 counterexample: invoking the `after_all` finalization twice at two
different clock instants does not yield the same summary values — the second
call overwrites `end_time` with the later instant. -/
theorem c6_counterexample :
    (afterAllFinalize (afterAllFinalize ⟨initTestResults, 0, none, none⟩ 10) 20).end_time
      = some 20
    ∧ (afterAllFinalize ⟨initTestResults, 0, none, none⟩ 10).end_time = some 10
    ∧ (afterAllFinalize (afterAllFinalize ⟨initTestResults, 0, none, none⟩ 10) 20
        ≠ afterAllFinalize ⟨initTestResults, 0, none, none⟩ 10) := by
  refine ⟨rfl, rfl, ?_⟩
  intro h
  have := congrArg RunResults.end_time h
  simp [afterAllFinalize] at this

/-- C6 (amended): the `after_all` finalization is idempotent only at a fixed
clock reading — repeating it with the same `now` changes nothing, but a
second call always recomputes `end_time` and `duration` from the clock at
that call, so calls at different instants disagree; the recorded scenario
results themselves are never touched by finalization. -/
theorem c6_finalize_recompute (r : RunResults) (t t1 t2 : Int) :
    afterAllFinalize (afterAllFinalize r t) t = afterAllFinalize r t
    ∧ (afterAllFinalize (afterAllFinalize r t1) t2).end_time = some t2
    ∧ (afterAllFinalize (afterAllFinalize r t1) t2).duration = some (t2 - r.start_time)
    ∧ (afterAllFinalize r t).results = r.results := by
  refine ⟨?_, rfl, rfl, rfl⟩
  simp [afterAllFinalize]

/-- C7 counterexample: a scenario whose raw status is `'skipped'` gets the
record status `'failed'` in its `scenario_result` dict (the recorded status is
the binary `'passed' if ... else 'failed'`), even though the run counters
count it as skipped. -/
theorem c7_counterexample :
    (buildScenarioResult "s" "skipped" 0 [] none "feat" none none).status = "failed"
    ∧ (updateCounters initTestResults "skipped").skipped = 1 := ⟨rfl, rfl⟩

/-- C7 (amended): the status recorded in the scenario's result record is
`'passed'` exactly when the raw status is `'passed'` and `'failed'` for every
other raw status — it is never `'skipped'`; the explicit skipped marker
affects only the run counters, which count as skipped every raw status that
is neither `'passed'` nor `'failed'`. -/
theorem c7_status_mapping (scName raw : String) (dur : Int) (tags : List String)
    (tcid : Option String) (featureName : String) (exc shot : Option String) :
    ((buildScenarioResult scName raw dur tags tcid featureName exc shot).status = "passed"
        ↔ raw = "passed")
    ∧ ((buildScenarioResult scName raw dur tags tcid featureName exc shot).status = "failed"
        ↔ raw ≠ "passed")
    ∧ (buildScenarioResult scName raw dur tags tcid featureName exc shot).status ≠ "skipped"
    ∧ ((updateCounters initTestResults raw).skipped = 1
        ↔ (raw ≠ "passed" ∧ raw ≠ "failed")) := by
  by_cases h1 : raw = "passed" <;> by_cases h2 : raw = "failed" <;>
    simp [buildScenarioResult, updateCounters, initTestResults, h1, h2]

/-- C8 counterexample: a tag whose prefix matches `TC-` case-insensitively
but is written in mixed case is not extracted — the loop checks only the
exact prefixes `TC-` and `tc-`, so `Tc-123` yields no test-case id. -/
theorem c8_counterexample :
    extractTestCaseId ["Tc-123"] = none
    ∧ strStartsWith (strToUpper "Tc-123") "TC-" = true := ⟨rfl, rfl⟩

/-- C8 (amended): the test-case id extracted by `before_scenario` is the
first tag in iteration order starting with exactly `TC-` or exactly `tc-`
(mixed casings of the prefix do not match), uppercased; when no tag has
either exact prefix the id is absent. -/
theorem c8_tc_tag_extraction (tags : List String) :
    extractTestCaseId tags
      = (tags.find? (fun t => strStartsWith t "TC-" || strStartsWith t "tc-")).map
          strToUpper := by
  induction tags with
  | nil => rfl
  | cons t rest ih =>
    by_cases h : (strStartsWith t "TC-" || strStartsWith t "tc-") = true
    · simp [extractTestCaseId, List.find?, h]
    · simp [extractTestCaseId, List.find?, h, ih]

/-- C2: for every entry of the environment-variable mapping table whose
variable is set to a non-empty value, the value resolved by
`ConfigManager.get` after a successful `_load_config` is the coerced
environment value — the mapping table is loaded last and wins over every
file-based source, whatever they contained. -/
theorem c2_env_var_precedence (env : String → Option String)
    (tryParse : String → Option Value)
    (baseIni : Option (List (String × List (String × String))))
    (envJson : Option (List (String × Value))) (customFile : Option SourceFile)
    (ev sec k v : String) (dft : Value) (d : Store)
    (hmem : (ev, sec, k) ∈ envMappings)
    (henv : env ev = some v) (hv : v ≠ "")
    (hok : ConfigManager.loadConfig env tryParse baseIni envJson customFile = Except.ok d) :
    ConfigManager.get d sec k dft = Except.ok (coerceEnvValue v) := by
  unfold ConfigManager.loadConfig at hok
  cases hf : loadFileSources env tryParse baseIni envJson customFile with
  | error e => rw [hf] at hok; exact absurd hok (by simp)
  | ok d3 =>
    rw [hf] at hok
    exact loadEnvList_mem_get env envMappings d3 d ev sec k v dft hmem
      envMappings_pairs_nodup henv hv hok

/-- C2 witness: with base INI browser = chromium, environment JSON browser =
firefox and BROWSER=webkit in the environment, the resolved browser is
webkit. -/
theorem c2_env_var_precedence_witness :
    ConfigManager.loadConfig (fun n => if n = "BROWSER" then some "webkit" else none)
        jsonTryParse (some [("framework", [("browser", "chromium")])])
        (some [("framework", Value.vDict [("browser", Value.vStr "firefox")])]) none
      = Except.ok [("framework", Value.vDict [("browser", Value.vStr "webkit")])]
    ∧ ConfigManager.get [("framework", Value.vDict [("browser", Value.vStr "webkit")])]
        "framework" "browser" Value.vNone = Except.ok (Value.vStr "webkit") :=
  ⟨rfl,
   c2_env_var_precedence (fun n => if n = "BROWSER" then some "webkit" else none)
     jsonTryParse (some [("framework", [("browser", "chromium")])])
     (some [("framework", Value.vDict [("browser", Value.vStr "firefox")])]) none
     "BROWSER" "framework" "browser" "webkit" Value.vNone
     [("framework", Value.vDict [("browser", Value.vStr "webkit")])]
     (List.mem_cons_self _ _) rfl (by decide) rfl⟩

/-- C10: an environment variable of the mapping table that is set to the
empty string is skipped by the truthiness guard of
`_load_environment_variables`, so after loading, `get` returns exactly what
the file-based sources resolved for that (section, key). -/
theorem c10_empty_env_no_override (env : String → Option String)
    (tryParse : String → Option Value)
    (baseIni : Option (List (String × List (String × String))))
    (envJson : Option (List (String × Value))) (customFile : Option SourceFile)
    (ev sec k : String) (dft : Value) (d3 d : Store)
    (hmem : (ev, sec, k) ∈ envMappings)
    (henv : env ev = some "")
    (_hfiles : loadFileSources env tryParse baseIni envJson customFile = Except.ok d3)
    (henvload : loadEnvList env envMappings d3 = Except.ok d) :
    ConfigManager.get d sec k dft = ConfigManager.get d3 sec k dft := by
  refine loadEnvList_preserves env envMappings d3 d sec k dft ?_ henvload
  intro m hm hp
  have hinj := List.inj_on_of_nodup_map envMappings_pairs_nodup
  have hme : m = (ev, sec, k) := hinj hm hmem (by rw [hp])
  rw [hme]
  exact Or.inr henv

/-- C10 witness: with base INI browser = chromium and BROWSER set to the
empty string, the resolved browser stays chromium. -/
theorem c10_empty_env_no_override_witness :
    loadFileSources (fun n => if n = "BROWSER" then some "" else none) jsonTryParse
        (some [("framework", [("browser", "chromium")])]) none none
      = Except.ok [("framework", Value.vDict [("browser", Value.vStr "chromium")])]
    ∧ loadEnvList (fun n => if n = "BROWSER" then some "" else none) envMappings
        [("framework", Value.vDict [("browser", Value.vStr "chromium")])]
      = Except.ok [("framework", Value.vDict [("browser", Value.vStr "chromium")])]
    ∧ ConfigManager.get [("framework", Value.vDict [("browser", Value.vStr "chromium")])]
        "framework" "browser" Value.vNone
      = ConfigManager.get [("framework", Value.vDict [("browser", Value.vStr "chromium")])]
        "framework" "browser" Value.vNone
    ∧ ConfigManager.get [("framework", Value.vDict [("browser", Value.vStr "chromium")])]
        "framework" "browser" Value.vNone = Except.ok (Value.vStr "chromium") :=
  ⟨rfl, rfl,
   c10_empty_env_no_override (fun n => if n = "BROWSER" then some "" else none)
     jsonTryParse (some [("framework", [("browser", "chromium")])]) none none
     "BROWSER" "framework" "browser" Value.vNone
     [("framework", Value.vDict [("browser", Value.vStr "chromium")])]
     [("framework", Value.vDict [("browser", Value.vStr "chromium")])]
     (List.mem_cons_self _ _) rfl rfl rfl,
   rfl⟩

/-- C5 counterexample: `_load_json` stores a non-dict top-level value as a
top-level entry, and `ConfigManager.get` on that section then raises
`AttributeError` (`.get` on a non-dict) instead of returning the default. -/
theorem c5_counterexample :
    loadJson [("framework", Value.vStr "oops")] []
      = Except.ok [("framework", Value.vStr "oops")]
    ∧ ConfigManager.get [("framework", Value.vStr "oops")] "framework" "browser" Value.vNone
      = Except.error "AttributeError" := ⟨rfl, rfl⟩

/-- C5 (amended): `get(section, key, default)` terminates without raising and
returns the default for any missing entry, provided every value present at
the named top-level entry is a mapping; when the top-level entry exists but
is not a mapping (reachable via a non-dict JSON top-level value), `get`
raises `AttributeError` instead. -/
theorem c5_get_default_on_missing (d : Store) (sec k : String) (dft : Value)
    (hdict : ∀ v, lookupA d sec = some v → ∃ m, v = Value.vDict m) :
    (∃ r, ConfigManager.get d sec k dft = Except.ok r)
    ∧ (lookupA d sec = none → ConfigManager.get d sec k dft = Except.ok dft)
    ∧ (∀ m, lookupA d sec = some (Value.vDict m) → lookupA m k = none →
        ConfigManager.get d sec k dft = Except.ok dft) := by
  cases hl : lookupA d sec with
  | none =>
    refine ⟨⟨dft, ?_⟩, fun _ => ?_, fun m hm => absurd hm (by simp)⟩
    · simp [ConfigManager.get, hl]
    · simp [ConfigManager.get, hl]
  | some w =>
    obtain ⟨m, rfl⟩ := hdict w hl
    refine ⟨⟨(lookupA m k).getD dft, ?_⟩, fun h => absurd h (by simp), ?_⟩
    · simp [ConfigManager.get, hl]
    · intro m' hm' hk
      have hmm : m = m' := by
        injection hm' with h1
        injection h1 with h2
      subst hmm
      simp [ConfigManager.get, hl, hk]

/-- C5 witness: on a store whose only top-level entry is a mapping, a lookup
of an absent section returns the supplied default. -/
theorem c5_get_default_on_missing_witness :
    (∃ r, ConfigManager.get [("framework", Value.vDict [("browser", Value.vStr "chromium")])]
        "reporting" "screenshot_on_failure" (Value.vBool true) = Except.ok r)
    ∧ (lookupA [("framework", Value.vDict [("browser", Value.vStr "chromium")])] "reporting"
          = none →
        ConfigManager.get [("framework", Value.vDict [("browser", Value.vStr "chromium")])]
          "reporting" "screenshot_on_failure" (Value.vBool true)
          = Except.ok (Value.vBool true))
    ∧ (∀ m, lookupA [("framework", Value.vDict [("browser", Value.vStr "chromium")])]
          "reporting" = some (Value.vDict m) → lookupA m "screenshot_on_failure" = none →
        ConfigManager.get [("framework", Value.vDict [("browser", Value.vStr "chromium")])]
          "reporting" "screenshot_on_failure" (Value.vBool true)
          = Except.ok (Value.vBool true)) :=
  c5_get_default_on_missing [("framework", Value.vDict [("browser", Value.vStr "chromium")])]
    "reporting" "screenshot_on_failure" (Value.vBool true)
    (fun _ hv => Option.noConfusion hv)

/-- C9 counterexample: a value of the literal form written in a JSON source
is stored verbatim by `_load_json` even when the named environment variable
is set — substitution happens only in `_load_ini`, not for the
environment-named JSON source. -/
theorem c9_counterexample :
    (fun n => if n = "BVAR" then some "firefox" else none) "BVAR" = some "firefox"
    ∧ ConfigManager.loadConfig (fun n => if n = "BVAR" then some "firefox" else none)
        jsonTryParse none
        (some [("framework", Value.vDict [("browser", Value.vStr "$\x7bBVAR\x7d")])]) none
      = Except.ok [("framework", Value.vDict [("browser", Value.vStr "$\x7bBVAR\x7d")])]
    ∧ ConfigManager.get [("framework", Value.vDict [("browser", Value.vStr "$\x7bBVAR\x7d")])]
        "framework" "browser" Value.vNone = Except.ok (Value.vStr "$\x7bBVAR\x7d")
    ∧ ("$\x7bBVAR\x7d" : String) ≠ "firefox" := ⟨rfl, rfl, rfl, by decide⟩

/-- C9 (amended): the substitution of values of the literal form applies only
during INI loading: there, the value becomes the environment variable's value
when set (then subject to the standard JSON-literal coercion) and stays the
literal text otherwise; values from JSON sources are stored verbatim with no
environment access, and the environment-variable mapping table stores the
plainly coerced raw value, never a substituted one. -/
theorem c9_substitution_only_ini (env : String → Option String)
    (tp : String → Option Value) (raw v : String)
    (h1 : strStartsWith raw "$\x7b" = true) (h2 : strEndsWith raw "\x7d" = true) :
    (env ((raw.drop 2).dropRight 1) = some v →
      loadIniValue env tp raw = (tp v).getD (Value.vStr v))
    ∧ (env ((raw.drop 2).dropRight 1) = none →
      loadIniValue env tp raw = (tp raw).getD (Value.vStr raw))
    ∧ (∀ d key w, (∀ m, w ≠ Value.vDict m) →
        loadJsonEntry d key w = Except.ok (setA d key w))
    ∧ (∀ e d m w, e m.1 = some w → w ≠ "" →
        loadEnvStep e d m
          = setSectionKey (ensureSection d m.2.1) m.2.1 m.2.2 (coerceEnvValue w)) := by
  refine ⟨?_, ?_, ?_, ?_⟩
  · intro he
    simp [loadIniValue, substEnv, h1, h2, he]
  · intro he
    simp [loadIniValue, substEnv, h1, h2, he]
  · intro d key w hw
    cases w with
    | vDict m => exact absurd rfl (hw m)
    | vNone => rfl
    | vBool b => rfl
    | vInt i => rfl
    | vStr s => rfl
  · intro e d m w he hw
    simp [loadEnvStep, he, hw]

/-- C9 witness: an INI value naming a set environment variable loads as that
variable's value. -/
theorem c9_substitution_only_ini_witness :
    strStartsWith "$\x7bHOST\x7d" "$\x7b" = true
    ∧ loadIniValue (fun n => if n = "HOST" then some "myhost" else none) jsonTryParse
        "$\x7bHOST\x7d" = Value.vStr "myhost" :=
  ⟨rfl,
   (c9_substitution_only_ini (fun n => if n = "HOST" then some "myhost" else none)
     jsonTryParse "$\x7bHOST\x7d" "myhost" rfl rfl).1 rfl⟩

/-- C3 counterexample: when the outcome construction raises (the region of
`after_scenario` building `scenario_result` is not inside any `try`), the
exception escapes the handler and `browser_manager.stop()` is never called:
zero release calls on that exit path. -/
theorem c3_counterexample :
    ((afterScenarioAct "s" "feat" "passed" 1 [] none none "shot.png" true false
        ⟨false, true, false, false⟩) ⟨initTestResults, none, 0, 0⟩).1.stopCalls = 0
    ∧ ((afterScenarioAct "s" "feat" "passed" 1 [] none none "shot.png" true false
        ⟨false, true, false, false⟩) ⟨initTestResults, none, 0, 0⟩).2 = true := ⟨rfl, rfl⟩

/-- C3 (amended): `browser_manager.stop()` is called exactly once before
`after_scenario` returns on every exit path on which the outcome construction
does not raise — in particular when screenshot capture raises (caught by its
own handler), when the Zephyr dispatch raises (caught), and when `stop`
itself raises (caught); but an exception in the unguarded outcome
construction escapes before the release. -/
theorem c3_lease_release (scName featureName raw : String) (dur : Int)
    (tags : List String) (tcid : Option String) (exc : Option String) (shotPath : String)
    (shotOnFailure zephyrOn : Bool) (f : FaultModel) (s : ExecState)
    (h : f.outcomeRaises = false) :
    ((afterScenarioAct scName featureName raw dur tags tcid exc shotPath
        shotOnFailure zephyrOn f) s).1.stopCalls = s.stopCalls + 1
    ∧ ((afterScenarioAct scName featureName raw dur tags tcid exc shotPath
        shotOnFailure zephyrOn f) s).2 = false := by
  unfold afterScenarioAct seqAct tryAct skipAct screenshotAct countersAct outcomeAct
    zephyrUpdateAct stopAct
  simp only [h]
  split_ifs <;> simp_all

/-- C3 witness: with screenshot capture, Zephyr dispatch and `stop` itself
all raising but the outcome construction sound, the release is still called
exactly once and the handler returns normally. -/
theorem c3_lease_release_witness :
    ((afterScenarioAct "s" "feat" "failed" 2 [] (some "TC-1") (some "boom") "shot.png"
        true true ⟨true, false, true, true⟩) ⟨initTestResults, none, 0, 0⟩).1.stopCalls
      = (⟨initTestResults, none, 0, 0⟩ : ExecState).stopCalls + 1
    ∧ ((afterScenarioAct "s" "feat" "failed" 2 [] (some "TC-1") (some "boom") "shot.png"
        true true ⟨true, false, true, true⟩) ⟨initTestResults, none, 0, 0⟩).2 = false :=
  c3_lease_release "s" "feat" "failed" 2 [] (some "TC-1") (some "boom") "shot.png"
    true true ⟨true, false, true, true⟩ ⟨initTestResults, none, 0, 0⟩ rfl

theorem dispatchSinks_foldl (sinks : List SinkBehavior) (s : ExecState) :
    (sinks.foldl (fun s' b => (tryAct (sinkCallAct b) s').1) s).testResults = s.testResults
    ∧ (sinks.foldl (fun s' b => (tryAct (sinkCallAct b) s').1) s).sinkCalls
        = s.sinkCalls + sinks.length := by
  induction sinks generalizing s with
  | nil => simp
  | cons b rest ih =>
    simp only [List.foldl_cons, List.length_cons]
    obtain ⟨h1, h2⟩ := ih ((tryAct (sinkCallAct b) s).1)
    have htr : (tryAct (sinkCallAct b) s).1.testResults = s.testResults := rfl
    have hsc : (tryAct (sinkCallAct b) s).1.sinkCalls = s.sinkCalls + 1 := rfl
    constructor
    · rw [h1, htr]
    · rw [h2, hsc]
      omega

/-- C4: dispatching scenario reports to an ordered list of sinks with the
hooks' per-integration `try/except` pattern attempts every sink call
regardless of earlier failures, never lets an exception escape, and leaves
the already-recorded test results untouched; moreover the Zephyr request
boundary turns a failed HTTP request into the error result `None` without
raising, and the email reporter turns an SMTP failure into `False` without
raising. -/
theorem c4_sink_failure_isolation (sinks : List SinkBehavior) (s : ExecState) :
    (dispatchSinks sinks s).1.testResults = s.testResults
    ∧ (dispatchSinks sinks s).1.sinkCalls = s.sinkCalls + sinks.length
    ∧ (dispatchSinks sinks s).2 = false
    ∧ ZephyrIntegration.makeRequest "POST" true = Except.ok none
    ∧ EmailReporter.sendEmail true = false := by
  obtain ⟨h1, h2⟩ := dispatchSinks_foldl sinks s
  exact ⟨h1, h2, rfl, rfl, rfl⟩
